import Mathlib

/-!
Verification of the multi-pass merge / normalize / sanitize / schema pipeline
of the visual-descriptor repository (src/visual_descriptor).

The Python code operates on JSON-like values (the output of vision-language
model passes).  We model those values with the inductive type `JVal`:
Python `None` is `JVal.null`, Python dicts are association lists that keep
insertion order (as Python dicts do), and Python numbers are rationals.
All record-level functions are translated from the source files
`multipass_merge.py`, `normalize_vocab.py`, `engine.py`, `validators.py`
and `schema.py`; functions that can raise a Python exception on malformed
input (attribute errors on non-dict / non-string values, `float(...)` of a
non-number) are translated into `Option`-valued functions, with `none`
standing for a raised exception.
-/

inductive JVal where
  | null : JVal
  | bool (b : Bool) : JVal
  | num (q : Rat) : JVal
  | str (s : String) : JVal
  | arr (xs : List JVal) : JVal
  | obj (kvs : List (String × JVal)) : JVal

mutual

/-- Structural (Python `==`) equality of JSON-like values. -/
def jeq (a b : JVal) : Bool :=
  match a, b with
  | JVal.null, JVal.null => true
  | JVal.bool x, JVal.bool y => x == y
  | JVal.num x, JVal.num y => x == y
  | JVal.str x, JVal.str y => x == y
  | JVal.arr xs, JVal.arr ys => jeqList xs ys
  | JVal.obj xs, JVal.obj ys => jeqPairs xs ys
  | _, _ => false

def jeqList (as bs : List JVal) : Bool :=
  match as, bs with
  | [], [] => true
  | x :: xs, y :: ys => jeq x y && jeqList xs ys
  | _, _ => false

def jeqPairs (as bs : List (String × JVal)) : Bool :=
  match as, bs with
  | [], [] => true
  | (k1, v1) :: xs, (k2, v2) :: ys => k1 == k2 && jeq v1 v2 && jeqPairs xs ys
  | _, _ => false

end

def jeqList_refl_of : ∀ (xs : List JVal), (∀ x ∈ xs, jeq x x = true) → jeqList xs xs = true := by
  intro xs h
  induction xs with
  | nil => rfl
  | cons x rest ihr =>
    simp only [jeqList, Bool.and_eq_true]
    exact ⟨h x (List.mem_cons_self x rest), ihr (fun y hy => h y (List.mem_cons_of_mem _ hy))⟩

def jeqPairs_refl_of : ∀ (xs : List (String × JVal)), (∀ p ∈ xs, jeq p.2 p.2 = true) → jeqPairs xs xs = true := by
  intro xs h
  induction xs with
  | nil => rfl
  | cons p rest ihr =>
    obtain ⟨k, v⟩ := p
    simp only [jeqPairs, Bool.and_eq_true, beq_self_eq_true, true_and]
    exact ⟨h ⟨k, v⟩ (List.mem_cons_self _ rest), ihr (fun q hq => h q (List.mem_cons_of_mem _ hq))⟩

def jeq_refl : ∀ (a : JVal), jeq a a = true := by
  have main : ∀ (n : Nat) (a : JVal), sizeOf a ≤ n → jeq a a = true := by
    intro n
    induction n with
    | zero =>
      intro a h
      exfalso
      cases a <;> simp_all
    | succ n ih =>
      intro a h
      cases a with
      | null => rfl
      | bool b => simp [jeq]
      | num q => simp [jeq]
      | str s => simp [jeq]
      | arr xs =>
        have hx : ∀ x ∈ xs, jeq x x = true := by
          intro x hmem
          apply ih
          have h1 : sizeOf x < sizeOf xs := List.sizeOf_lt_of_mem hmem
          have h2 : sizeOf (JVal.arr xs) = 1 + sizeOf xs := by simp
          omega
        simpa [jeq] using jeqList_refl_of xs hx
      | obj kvs =>
        have hx : ∀ p ∈ kvs, jeq p.2 p.2 = true := by
          intro p hmem
          apply ih
          have h1 : sizeOf p < sizeOf kvs := List.sizeOf_lt_of_mem hmem
          have h2 : sizeOf (JVal.obj kvs) = 1 + sizeOf kvs := by simp
          have h3 : sizeOf p.2 < sizeOf p := by
            obtain ⟨k, v⟩ := p
            simp
          omega
        simpa [jeq] using jeqPairs_refl_of kvs hx
  intro a
  exact main (sizeOf a) a (Nat.le_refl _)

def jeqList_sound_of : ∀ (xs ys : List JVal), (∀ x ∈ xs, ∀ b, jeq x b = true → x = b) → jeqList xs ys = true → xs = ys := by
  intro xs
  induction xs with
  | nil =>
    intro ys h hq
    cases ys with
    | nil => rfl
    | cons y rys => simp [jeqList] at hq
  | cons x rest ihr =>
    intro ys h hq
    cases ys with
    | nil => simp [jeqList] at hq
    | cons y rys =>
      simp only [jeqList, Bool.and_eq_true] at hq
      obtain ⟨h1, h2⟩ := hq
      have hx := h x (List.mem_cons_self _ _) y h1
      have hr := ihr rys (fun z hz => h z (List.mem_cons_of_mem _ hz)) h2
      rw [hx, hr]

def jeqPairs_sound_of : ∀ (xs ys : List (String × JVal)), (∀ p ∈ xs, ∀ b, jeq p.2 b = true → p.2 = b) → jeqPairs xs ys = true → xs = ys := by
  intro xs
  induction xs with
  | nil =>
    intro ys h hq
    cases ys with
    | nil => rfl
    | cons y rys => simp [jeqPairs] at hq
  | cons p rest ihr =>
    intro ys h hq
    cases ys with
    | nil =>
      obtain ⟨k, v⟩ := p
      simp [jeqPairs] at hq
    | cons q rys =>
      obtain ⟨k1, v1⟩ := p
      obtain ⟨k2, v2⟩ := q
      simp only [jeqPairs, Bool.and_eq_true] at hq
      obtain ⟨⟨hk, h1⟩, h2⟩ := hq
      have hkeq : k1 = k2 := by simpa using hk
      have hx := h ⟨k1, v1⟩ (List.mem_cons_self _ _) v2 h1
      have hr := ihr rys (fun z hz => h z (List.mem_cons_of_mem _ hz)) h2
      simp only at hx
      rw [hkeq, hx, hr]

def jeq_sound : ∀ (a b : JVal), jeq a b = true → a = b := by
  have main : ∀ (n : Nat) (a : JVal), sizeOf a ≤ n → ∀ b, jeq a b = true → a = b := by
    intro n
    induction n with
    | zero =>
      intro a h
      exfalso
      cases a <;> simp_all
    | succ n ih =>
      intro a h b hq
      cases a with
      | null => cases b <;> simp_all [jeq]
      | bool x => cases b <;> simp_all [jeq]
      | num x => cases b <;> simp_all [jeq]
      | str x => cases b <;> simp_all [jeq]
      | arr xs =>
        cases b with
        | arr ys =>
          have hx : ∀ x ∈ xs, ∀ c, jeq x c = true → x = c := by
            intro x hmem
            apply ih
            have h1 : sizeOf x < sizeOf xs := List.sizeOf_lt_of_mem hmem
            have h2 : sizeOf (JVal.arr xs) = 1 + sizeOf xs := by simp
            omega
          have := jeqList_sound_of xs ys hx (by simpa [jeq] using hq)
          rw [this]
        | null => simp [jeq] at hq
        | bool y => simp [jeq] at hq
        | num y => simp [jeq] at hq
        | str y => simp [jeq] at hq
        | obj ys => simp [jeq] at hq
      | obj kvs =>
        cases b with
        | obj ys =>
          have hx : ∀ p ∈ kvs, ∀ c, jeq p.2 c = true → p.2 = c := by
            intro p hmem
            apply ih
            have h1 : sizeOf p < sizeOf kvs := List.sizeOf_lt_of_mem hmem
            have h2 : sizeOf (JVal.obj kvs) = 1 + sizeOf kvs := by simp
            have h3 : sizeOf p.2 < sizeOf p := by
              obtain ⟨k, v⟩ := p
              simp
            omega
          have := jeqPairs_sound_of kvs ys hx (by simpa [jeq] using hq)
          rw [this]
        | null => simp [jeq] at hq
        | bool y => simp [jeq] at hq
        | num y => simp [jeq] at hq
        | str y => simp [jeq] at hq
        | arr ys => simp [jeq] at hq
  intro a b
  exact main (sizeOf a) a (Nat.le_refl _) b

instance : DecidableEq JVal := fun a b =>
  if h : jeq a b = true then isTrue (jeq_sound a b h)
  else isFalse (fun e => h (by rw [e]; exact jeq_refl b))

abbrev PyDict := List (String × JVal)

/-- Python dict lookup `d[k]` / `d.get(k)` restricted to present keys:
returns the value bound to the first occurrence of `k`. -/
def dget (d : PyDict) (k : String) : Option JVal :=
  match d with
  | [] => none
  | (k0, v0) :: rest => if k0 = k then some v0 else dget rest k

/-- Python `d.get(k)`: an absent key yields the `None` object, which is
indistinguishable from a stored `None` value. -/
def pyGet (d : PyDict) (k : String) : JVal :=
  (dget d k).getD JVal.null

/-- Python dict assignment `d[k] = v`: an existing key keeps its position,
a new key is appended at the end (insertion order semantics). -/
def dset (d : PyDict) (k : String) (v : JVal) : PyDict :=
  match d with
  | [] => [(k, v)]
  | (k0, v0) :: rest => if k0 = k then (k0, v) :: rest else (k0, v0) :: dset rest k v

/-- Python `d.setdefault(k, v)`. -/
def dsetdefault (d : PyDict) (k : String) (v : JVal) : PyDict :=
  if (dget d k).isSome then d else d ++ [(k, v)]

/-- Python `d.pop(k, None)`: removes the key if present. -/
def dpop (d : PyDict) (k : String) : PyDict :=
  d.filter (fun p => p.1 ≠ k)

/-- Python `k in d` for dicts. -/
def dhas (d : PyDict) (k : String) : Bool :=
  (dget d k).isSome

/-- Python truthiness of a JSON-like value. -/
def pyTruthy (v : JVal) : Bool :=
  match v with
  | JVal.null => false
  | JVal.bool b => b
  | JVal.num q => decide (q ≠ 0)
  | JVal.str s => decide (s ≠ "")
  | JVal.arr xs => !xs.isEmpty
  | JVal.obj kvs => !kvs.isEmpty

/-- Python `a or b` on values. -/
def pyOr (a b : JVal) : JVal :=
  if pyTruthy a then a else b

def isObj (v : JVal) : Bool :=
  match v with
  | JVal.obj _ => true
  | _ => false

def isList (v : JVal) : Bool :=
  match v with
  | JVal.arr _ => true
  | _ => false

def isStr (v : JVal) : Bool :=
  match v with
  | JVal.str _ => true
  | _ => false

/-- Python `str.strip()` (whitespace on both ends). -/
def pyStrip (s : String) : String :=
  String.mk (((s.data.dropWhile Char.isWhitespace).reverse.dropWhile Char.isWhitespace).reverse)

/-- Python `str.lower()` (the strings handled by this code are ASCII). -/
def pyLower (s : String) : String :=
  String.mk (s.data.map Char.toLower)

def listStartsWith : List Char → List Char → Bool
  | _, [] => true
  | [], _ :: _ => false
  | a :: as, b :: bs => a == b && listStartsWith as bs

def listHasSubseg (l pat : List Char) : Bool :=
  if listStartsWith l pat then true
  else
    match l with
    | [] => false
    | _ :: rest => listHasSubseg rest pat

/-- Python substring test `pat in s`. -/
def strIn (pat s : String) : Bool :=
  listHasSubseg s.data pat.data

/-- Single-quote character, used when rendering Python `repr` of strings. -/
def sqChar : Char := Char.ofNat 39

def dqChar : Char := Char.ofNat 34

/-- Python `repr` quoting of a string: single quotes unless the string
contains a single quote and no double quote (escaping inside the string is
not modelled; it never arises in this pipeline). -/
def quoteStr (s : String) : String :=
  if s.contains sqChar && !(s.contains dqChar) then
    String.singleton dqChar ++ s ++ String.singleton dqChar
  else
    String.singleton sqChar ++ s ++ String.singleton sqChar

/-- Rendering of a Python number.  Integers render exactly as Python does;
the float rendering is approximated (no value proved here depends on it:
it only feeds structural de-duplication keys of numeric list items). -/
def numStr (q : Rat) : String :=
  if q.den = 1 then toString q.num
  else toString q.num ++ "/" ++ toString q.den

mutual

/-- Python `repr` of a JSON-like value. -/
def pyRepr (v : JVal) : String :=
  match v with
  | JVal.null => "None"
  | JVal.bool b => if b then "True" else "False"
  | JVal.num q => numStr q
  | JVal.str s => quoteStr s
  | JVal.arr xs => "[" ++ String.intercalate ", " (pyReprList xs) ++ "]"
  | JVal.obj kvs => "\x7b" ++ String.intercalate ", " (pyReprPairs kvs) ++ "\x7d"

def pyReprList (l : List JVal) : List String :=
  match l with
  | [] => []
  | x :: rest => pyRepr x :: pyReprList rest

def pyReprPairs (l : List (String × JVal)) : List String :=
  match l with
  | [] => []
  | (k, v) :: rest => (quoteStr k ++ ": " ++ pyRepr v) :: pyReprPairs rest

end

/-- Python `str()` of a JSON-like value. -/
def pyStr (v : JVal) : String :=
  match v with
  | JVal.str s => s
  | x => pyRepr x

/-! ## multipass_merge.py -/

/-- De-duplication key used by `_merge_lists` (multipass_merge.py line 17-23):
color-accent-like dicts (holding at least the keys role, name, hex) are
keyed by the tuple `("color", role, name, hex)`, other dicts by the sorted
tuple of `(key, str(value))` pairs, and non-dict items by `("_val_", str(it))`. -/
inductive MKey where
  | color (role name hex : JVal) : MKey
  | items (kvs : List (String × String)) : MKey
  | strv (s : String) : MKey
deriving DecidableEq

/-- Lexicographic comparison of `(key, str(value))` pairs, as Python
`sorted` orders 2-tuples of strings. -/
def pairLe (p q : String × String) : Bool :=
  if p.1 = q.1 then decide (p.2 ≤ q.2) else decide (p.1 < q.1)

def insertSorted (p : String × String) : List (String × String) → List (String × String)
  | [] => [p]
  | q :: rest => if pairLe p q then p :: q :: rest else q :: insertSorted p rest

/-- Python `sorted` on a list of string pairs (insertion sort; the order
produced agrees with Python on lists without duplicate first components,
and duplicate identical pairs compare equal anyway). -/
def sortPairs (l : List (String × String)) : List (String × String) :=
  l.foldr insertSorted []

def itemKey (it : JVal) : MKey :=
  match it with
  | JVal.obj kvs =>
    if dhas kvs "role" && dhas kvs "name" && dhas kvs "hex" then
      MKey.color (pyGet kvs "role") (pyGet kvs "name") (pyGet kvs "hex")
    else
      MKey.items (sortPairs (kvs.map (fun p => (p.1, pyStr p.2))))
  | v => MKey.strv (pyStr v)

/-- The de-duplicating loop of `_merge_lists`: keep the first item carrying
each key, in order. -/
def dedupKeys (seen : List MKey) (l : List JVal) : List JVal :=
  match l with
  | [] => []
  | it :: rest =>
    let k := itemKey it
    if seen.contains k then dedupKeys seen rest
    else it :: dedupKeys (k :: seen) rest

/-- Coercion applied by `_merge_lists` to each argument:
`None` becomes `[]`, a non-list becomes a one-element list. -/
def asPyList (x : JVal) : List JVal :=
  match x with
  | JVal.arr xs => xs
  | JVal.null => []
  | v => [v]

/-- multipass_merge.py `_merge_lists`: union two lists, de-duping items. -/
def pyMergeLists (a b : JVal) : List JVal :=
  dedupKeys [] (asPyList a ++ asPyList b)

mutual

/-- The `for k, vb in b.items()` loop body of `_merge_dicts`. -/
def pyMergeLoop (out : PyDict) (bs : PyDict) : PyDict :=
  match bs with
  | [] => out
  | (k, vb) :: rest => pyMergeLoop (dset out k (pyCombine (pyGet out k) vb)) rest

/-- Per-key decision of `_merge_dicts`: dicts recurse (with the empty-side
checks of `_merge_dicts` inlined), a list on either side triggers
list-union, otherwise the incoming value replaces the base value
unconditionally. -/
def pyCombine (va vb : JVal) : JVal :=
  match va, vb with
  | JVal.obj da, JVal.obj db =>
    JVal.obj (if da.isEmpty then db else if db.isEmpty then da else pyMergeLoop da db)
  | x, y => if isList x || isList y then JVal.arr (pyMergeLists x y) else y

end

/-- multipass_merge.py `_merge_dicts`: recursive dict merge with list-union.
An empty (or `None`) side returns a copy of the other side. -/
def pyMergeDicts (a b : PyDict) : PyDict :=
  if a.isEmpty then b
  else if b.isEmpty then a
  else pyMergeLoop a b

/-- multipass_merge.py `merge_pass`: merge one VLM pass output into the
accumulated record.  The `conf_in` and `fields_scope` parameters are part
of the signature but are never read by the body.  After the merge, color
accents are de-duplicated and capped at 12 entries. -/
def mergePass (base incoming : Option PyDict) (confIn fieldsScope : JVal) : PyDict :=
  let b := base.getD []
  match incoming with
  | none => b
  | some inc =>
    if inc.isEmpty then b
    else
      let out := pyMergeDicts b inc
      match dget out "colors" with
      | some (JVal.obj cd) =>
        match dget cd "accents" with
        | some (JVal.arr xs) =>
          dset out "colors" (JVal.obj (dset cd "accents" (JVal.arr ((dedupKeys [] xs).take 12))))
        | _ => out
      | _ => out

/-! ## normalize_vocab.py -/

def TOP_LENGTH_MAP : List (String × String) :=
  [("cropped", "cropped"), ("crop", "cropped"),
   ("waist", "waist"), ("hip", "hip"), ("thigh", "thigh"),
   ("longline", "longline"), ("tunic", "tunic")]

def BOTTOM_LENGTH_MAP : List (String × String) :=
  [("mini", "mini"), ("short", "short"), ("midi", "midi"), ("mid", "midi"),
   ("ankle", "ankle"), ("maxi", "maxi"), ("floor", "floor")]

def FABRIC_TYPE_MAP : List (String × String) :=
  [("denim", "denim"), ("cotton", "cotton"), ("wool", "wool"), ("wool blend", "wool blend"),
   ("leather", "leather"), ("faux leather", "faux leather"), ("suede", "suede"),
   ("jersey", "jersey"), ("knit", "knit"), ("satin", "satin"), ("silk", "silk"),
   ("linen", "linen"), ("polyester", "polyester"), ("polyester blend", "polyester blend"),
   ("nylon", "nylon"), ("nylon blend", "nylon blend"), ("mesh", "mesh")]

def FABRIC_TEXTURE_MAP : List (String × String) :=
  [("smooth", "smooth"), ("ribbed", "ribbed"), ("quilted", "quilted"), ("brushed", "brushed"),
   ("fuzzy", "fuzzy"), ("plush", "plush"), ("matte", "matte"), ("shiny", "shiny"),
   ("reflective", "shiny"), ("textured", "textured"), ("cable-knit", "cable-knit")]

def FABRIC_WEIGHT_MAP : List (String × String) :=
  [("light", "light"), ("lightweight", "light"), ("medium", "medium"),
   ("midweight", "medium"), ("heavy", "heavy"), ("heavyweight", "heavy")]

def COLOR_MAP : List (String × String) :=
  [("off white", "ivory"), ("off-white", "ivory"), ("cream", "ivory"),
   ("ivory", "ivory"), ("white", "white"), ("black", "black"),
   ("gray", "gray"), ("grey", "gray"), ("charcoal", "gray"),
   ("tan", "tan"), ("beige", "beige"), ("camel", "camel"),
   ("brown", "brown"), ("chocolate", "brown"),
   ("purple", "purple"), ("violet", "violet"), ("plum", "plum"), ("eggplant", "eggplant"),
   ("lavender", "lavender"), ("lilac", "lilac"), ("amethyst", "amethyst"),
   ("red", "red"), ("crimson", "crimson"), ("maroon", "maroon"), ("burgundy", "burgundy"),
   ("blue", "blue"), ("navy", "navy"), ("royal blue", "royal blue"), ("sky blue", "sky blue"),
   ("green", "green"), ("olive", "olive"), ("forest", "forest"), ("mint", "mint"),
   ("yellow", "yellow"), ("mustard", "mustard"), ("gold", "gold"), ("lemon", "lemon"),
   ("orange", "orange"), ("rust", "rust"), ("peach", "peach"), ("apricot", "apricot")]

def STITCHING_COLOR_MAP : List (String × String) :=
  [("match", "matching"), ("matching", "matching"),
   ("white", "white"), ("black", "black"),
   ("contrast", "contrast"), ("contrast-light", "contrast-light"), ("light contrast", "contrast-light"),
   ("contrast dark", "contrast-dark"), ("contrast-dark", "contrast-dark")]

def mapGet (m : List (String × String)) (k : String) : Option String :=
  match m with
  | [] => none
  | (k0, v0) :: rest => if k0 = k then some v0 else mapGet rest k

/-- normalize_vocab.py `_norm`: falsy values pass through; otherwise look up
the lower-cased trimmed string form in the vocabulary map, defaulting to the
original value on a miss. -/
def vnorm (val : JVal) (m : List (String × String)) : JVal :=
  if !pyTruthy val then val
  else
    match mapGet m (pyLower (pyStrip (pyStr val))) with
    | some s => JVal.str s
    | none => val

/-- Python `(x or "")` followed by `.strip()` — raises (`none`) when `x` is
truthy but not a string. -/
def strOrEmpty (v : JVal) : Option String :=
  if pyTruthy v then
    match v with
    | JVal.str s => some s
    | _ => none
  else some ""

/-- Python `(x or "").lower()`. -/
def lowOrEmpty (v : JVal) : Option String :=
  (strOrEmpty v).map pyLower

/-- Python `(x or "").strip().lower()`. -/
def lowStrOrEmpty (v : JVal) : Option String :=
  (strOrEmpty v).map (fun s => pyLower (pyStrip s))

/-- The loop of normalize_vocab.py `_norm_list`: normalize each element,
strip string results, drop falsy entries, and de-duplicate by lower-cased
form.  Calling `.lower()` on a truthy non-string element raises (`none`). -/
def vnormListGo (m : List (String × String)) (seen : List String) (acc : List JVal) : List JVal → Option (List JVal)
  | [] => some acc.reverse
  | v :: rest =>
    let nv0 := pyOr (vnorm v m) v
    let nv := match nv0 with
      | JVal.str s => JVal.str (pyStrip s)
      | x => x
    if pyTruthy nv then
      match nv with
      | JVal.str s =>
        if seen.contains (pyLower s) then vnormListGo m seen acc rest
        else vnormListGo m (pyLower s :: seen) (JVal.str s :: acc) rest
      | _ => none
    else vnormListGo m seen acc rest

/-- normalize_vocab.py `_norm_list`. -/
def vnormList (values : List JVal) (m : List (String × String)) : Option (List JVal) :=
  vnormListGo m [] [] values

/-- Placeholder ban-set of normalize_vocab.py `_clean_placeholders`:
trimmed lower-cased strings equal to one of these become `None`. -/
def PLACEHOLDER_SET : List String :=
  ["string", "string|null", "null", "none", "unknown"]

/-- normalize_vocab.py `_clean_placeholders`. -/
def cleanPlaceholders (val : JVal) : JVal :=
  match val with
  | JVal.str s =>
    if PLACEHOLDER_SET.contains (pyLower (pyStrip s)) then JVal.null else JVal.str s
  | v => v

/-- Python `dict(x or \x7b\x7d)`: a falsy value yields an empty dict, a dict
is shallow-copied, and a truthy non-dict raises (`none`; `dict(...)` of a
list of pairs is not modelled — it never occurs in this pipeline). -/
def asDictCopy (v : JVal) : Option PyDict :=
  if pyTruthy v then
    match v with
    | JVal.obj kvs => some kvs
    | _ => none
  else some []

/-- One entry of the final placeholder-cleanup loop of `normalize_record`:
top-level strings are cleaned, elements of top-level lists are cleaned and
falsy results dropped, and values one level inside dict-valued fields are
cleaned in place.  Deeper nesting is not visited. -/
def cleanupEntry (v : JVal) : JVal :=
  match v with
  | JVal.str s => cleanPlaceholders (JVal.str s)
  | JVal.arr xs => JVal.arr ((xs.map cleanPlaceholders).filter pyTruthy)
  | JVal.obj kvs => JVal.obj (kvs.map (fun p => (p.1, cleanPlaceholders p.2)))
  | x => x

/-- The final `for key, value in list(r.items())` cleanup loop of
`normalize_record`. -/
def cleanupTop (r : PyDict) : PyDict :=
  r.map (fun p => (p.1, cleanupEntry p.2))

/-- normalize_vocab.py `normalize_record`.  `none` models a raised Python
exception (attribute errors on truthy non-string / non-dict fields). -/
def normalizeRecord (r : PyDict) : Option PyDict := do
  let r ← match dget r "color_palette" with
    | some (JVal.arr xs) => do
      let ys ← vnormList xs COLOR_MAP
      pure (dset r "color_palette" (JVal.arr ys))
    | _ => pure r
  let fab0 ← asDictCopy (pyOr (pyGet r "fabric") (JVal.obj []))
  let fab := dset fab0 "type" (vnorm (pyGet fab0 "type") FABRIC_TYPE_MAP)
  let fab := dset fab "texture" (vnorm (pyGet fab "texture") FABRIC_TEXTURE_MAP)
  let fab := dset fab "weight" (vnorm (pyGet fab "weight") FABRIC_WEIGHT_MAP)
  let r := dset r "fabric" (JVal.obj fab)
  let ftype ← lowStrOrEmpty (pyGet fab "type")
  let finish ← lowStrOrEmpty (pyGet fab "finish")
  let texture ← lowStrOrEmpty (pyGet fab "texture")
  let r :=
    if (ftype = "" ∨ ftype = "synthetic" ∨ ftype = "poly" ∨ ftype = "polyester" ∨ ftype = "unknown")
        ∧ finish = "shiny" ∧ texture = "smooth" then
      dset r "fabric" (JVal.obj (dset fab "type" (JVal.str "satin")))
    else r
  let cons0 ← asDictCopy (pyOr (pyGet r "construction") (JVal.obj []))
  let cons := dset cons0 "stitching_color" (vnorm (pyGet cons0 "stitching_color") STITCHING_COLOR_MAP)
  let cons := match pyGet cons "top" with
    | JVal.obj blk => dset cons "top" (JVal.obj (dset blk "stitching_color" (vnorm (pyGet blk "stitching_color") STITCHING_COLOR_MAP)))
    | _ => cons
  let cons := match pyGet cons "bottom" with
    | JVal.obj blk => dset cons "bottom" (JVal.obj (dset blk "stitching_color" (vnorm (pyGet blk "stitching_color") STITCHING_COLOR_MAP)))
    | _ => cons
  let r := dset r "construction" (JVal.obj cons)
  let gc0 ← asDictCopy (pyOr (pyGet r "garment_components") (JVal.obj []))
  let gc := dset gc0 "top_length" (vnorm (pyGet gc0 "top_length") TOP_LENGTH_MAP)
  let gc := dset gc "bottom_length" (vnorm (pyGet gc "bottom_length") BOTTOM_LENGTH_MAP)
  let gc := match pyGet gc "layers" with
    | JVal.arr xs => dset gc "layers" (JVal.arr (xs.filter (fun x => pyTruthy (cleanPlaceholders x))))
    | _ => dset gc "layers" (JVal.arr [])
  let r := dset r "garment_components" (JVal.obj gc)
  pure (cleanupTop r)

/-! ## engine.py helpers -/

/-- engine.py `_coerce_str`: keep a non-empty stripped string, else `None`. -/
def coerceStr (v : JVal) : JVal :=
  match v with
  | JVal.str s =>
    let t := pyStrip s
    if t = "" then JVal.null else JVal.str t
  | _ => JVal.null

/-- The details-sanitation block that appears both in
`Engine.describe_image` and at the end of `_sanitize_types`:
a list keeps only its string elements (the key is removed when none
remain), a non-`None` non-list value removes the key. -/
def detailsFilter (r : PyDict) : PyDict :=
  match dget r "details" with
  | some (JVal.arr xs) =>
    let onlyStr := xs.filter isStr
    if onlyStr.isEmpty then dpop r "details" else dset r "details" (JVal.arr onlyStr)
  | some JVal.null => r
  | some _ => dpop r "details"
  | none => r

/-- engine.py `_sanitize_types`: coerce the known string-typed culprits in
the top level, the garment block and the construction blocks, then filter
`details` down to its string subset. -/
def sanitizeTypes (r0 : PyDict) : PyDict :=
  let gpair : PyDict × PyDict :=
    match dget r0 "garment" with
    | some (JVal.obj kvs) => (r0, kvs)
    | _ => (dset r0 "garment" (JVal.obj []), [])
  let step := fun (rg : PyDict × PyDict) (key : String) =>
    let rec1 := if dhas rg.1 key then dset rg.1 key (coerceStr (pyGet rg.1 key)) else rg.1
    let g1 := if dhas rg.2 key then dset rg.2 key (coerceStr (pyGet rg.2 key)) else rg.2
    (rec1, g1)
  let rg := ["top_style", "top", "top_sleeve", "bottom", "silhouette", "garment_type"].foldl step gpair
  let r1 := dset rg.1 "garment" (JVal.obj rg.2)
  let consKeys := ["seams", "stitching", "stitching_color", "hems", "closure"]
  let r2 :=
    match dget r1 "construction" with
    | some (JVal.obj cons) =>
      let cons := consKeys.foldl (fun c key => if dhas c key then dset c key (coerceStr (pyGet c key)) else c) cons
      let cons :=
        match pyGet cons "top" with
        | JVal.obj piece =>
          dset cons "top" (JVal.obj (consKeys.foldl (fun c key => if dhas c key then dset c key (coerceStr (pyGet c key)) else c) piece))
        | _ => cons
      let cons :=
        match pyGet cons "bottom" with
        | JVal.obj piece =>
          dset cons "bottom" (JVal.obj (consKeys.foldl (fun c key => if dhas c key then dset c key (coerceStr (pyGet c key)) else c) piece))
        | _ => cons
      dset r1 "construction" (JVal.obj cons)
    | _ => r1
  detailsFilter r2

/-- Accent loop of engine.py `_adapt_colors_from_vlm`: collect
`f"\x7bcol\x7d \x7brole\x7d"` strings from color-accent dicts.  A truthy
non-string role / name raises (`none`). -/
def accentBits : List JVal → Option (List String)
  | [] => some []
  | a :: rest =>
    match a with
    | JVal.obj kvs => do
      let role ← (strOrEmpty (pyGet kvs "role")).map pyStrip
      let col ← (strOrEmpty (pyOr (pyGet kvs "name") (pyGet kvs "color"))).map pyStrip
      let tail ← accentBits rest
      if role ≠ "" ∧ col ≠ "" then pure ((col ++ " " ++ role) :: tail) else pure tail
    | _ => accentBits rest

/-- engine.py `_adapt_colors_from_vlm._name`. -/
def patternName (node : JVal) : Option String :=
  match node with
  | JVal.obj kvs => (strOrEmpty (pyOr (pyGet kvs "name") (pyGet kvs "color"))).map pyStrip
  | JVal.str s => some (pyStrip s)
  | _ => some ""

/-- Pattern branch of `_adapt_colors_from_vlm`. -/
def patternBits (ptype fg : String) : List String :=
  if (ptype = "polka_dot" ∨ ptype = "polka dots" ∨ ptype = "polka-dot") ∧ fg ≠ "" then
    [fg ++ " polka dots"]
  else if (ptype = "stripe" ∨ ptype = "striped") ∧ fg ≠ "" then
    [fg ++ " stripes"]
  else if ptype = "plaid" ∨ ptype = "check" then
    [pyStrip ((if fg ≠ "" then fg ++ " " else "") ++ ptype)]
  else if ptype = "colorblock" then
    ["colorblock"]
  else []

/-- Case-insensitive order-preserving de-duplication of detail strings
(`_adapt_colors_from_vlm`, trailing loop). -/
def dedupCI (seen : List String) : List String → List String
  | [] => []
  | s :: rest =>
    let s2 := pyStrip s
    if s2 = "" then dedupCI seen rest
    else if seen.contains (pyLower s2) then dedupCI seen rest
    else s2 :: dedupCI (pyLower s2 :: seen) rest

/-- engine.py `_adapt_colors_from_vlm`: lift the VLM's nested colors/pattern
block into `color_primary` / `color_secondary` and `details` strings.
A record without a dict-valued `colors` key is returned unchanged. -/
def adaptColors (r0 : PyDict) : Option PyDict :=
  match dget r0 "colors" with
  | some (JVal.obj colors) => do
    let r1 :=
      match pyGet colors "primary" with
      | JVal.str s => if pyStrip s ≠ "" then dset r0 "color_primary" (JVal.str (pyStrip s)) else r0
      | _ => r0
    let r2 :=
      match pyGet colors "secondary" with
      | JVal.str s => if pyStrip s ≠ "" then dset r1 "color_secondary" (JVal.str (pyStrip s)) else r1
      | _ => r1
    let accents := pyOr (pyGet colors "accents") (JVal.arr [])
    let bits1 ←
      match accents with
      | JVal.arr items => accentBits items
      | _ => some []
    let patternV := if dhas colors "pattern" then pyGet colors "pattern" else pyGet r2 "pattern"
    let bits2 ←
      match patternV with
      | JVal.obj p => do
        let ptype ← (strOrEmpty (pyGet p "type")).map pyStrip
        let fg ← patternName (pyGet p "foreground")
        pure (patternBits ptype fg)
      | _ => some []
    let existing :=
      match dget r2 "details" with
      | some (JVal.arr xs) =>
        if xs.all isStr then xs.filterMap (fun x => match x with | JVal.str s => some s | _ => none)
        else []
      | _ => []
    let outL := dedupCI [] (existing ++ bits1 ++ bits2)
    if outL.isEmpty then pure (dpop r2 "details")
    else pure (dset r2 "details" (JVal.arr (outL.map JVal.str)))
  | _ => some r0

/-! ## schema.py (pydantic Record model) -/

def defaultFabric : PyDict :=
  [("type", JVal.null), ("texture", JVal.null), ("weight", JVal.null), ("finish", JVal.null)]

def defaultGarment : PyDict :=
  [("top", JVal.null), ("bottom", JVal.null), ("top_style", JVal.null), ("top_sleeve", JVal.null)]

def defaultGarmentComponents : PyDict :=
  [("top_length", JVal.null), ("bottom_length", JVal.null), ("layers", JVal.arr [])]

def defaultConstruction : PyDict :=
  [("seams", JVal.null), ("stitching", JVal.null), ("stitching_color", JVal.null),
   ("hems", JVal.null), ("closure", JVal.null), ("top", JVal.null), ("bottom", JVal.null)]

def defaultEnvironment : PyDict :=
  [("setup", JVal.null), ("mood", JVal.null), ("background", JVal.null)]

def defaultFootwear : PyDict :=
  [("type", JVal.null), ("color", JVal.null)]

def defaultModelBlock : PyDict :=
  [("framing", JVal.null), ("expression", JVal.null), ("gaze", JVal.null)]

def defaultCamera : PyDict :=
  [("view", JVal.null), ("multiview", JVal.null), ("views", JVal.null), ("angle", JVal.null)]

def defaultStyling : PyDict :=
  [("layering", JVal.null), ("accessories", JVal.null)]

/-- Python `out.update(v)` for dicts. -/
def dupdate (out : PyDict) (v : PyDict) : PyDict :=
  v.foldl (fun d p => dset d p.1 p.2) out

/-- schema.py `Record._coerce_gcs` (mode="before" validator): merge the
garment-components defaults under the input and coerce `layers` to a clean
list of trimmed non-empty strings.  The validator never fails; when the
field is absent pydantic uses the default factory instead. -/
def coerceGcs (v : Option JVal) : PyDict :=
  match v with
  | none => defaultGarmentComponents
  | some w =>
    match w with
    | JVal.obj kvs =>
      let out := dupdate defaultGarmentComponents kvs
      let layers :=
        match pyGet out "layers" with
        | JVal.null => []
        | JVal.str s => ((s.splitOn ",").map pyStrip).filter (fun t => t ≠ "")
        | JVal.arr xs => (xs.map (fun x => pyStrip (pyStr x))).filter (fun t => t ≠ "")
        | other =>
          let t := pyStrip (pyStr other)
          if t = "" then [] else [t]
      dset out "layers" (JVal.arr (layers.map JVal.str))
    | _ => defaultGarmentComponents

/-- schema.py `Record._coerce_cons` (mode="before" validator): merge the
construction defaults under the input and normalize the per-piece
`top` / `bottom` entries (a list joins into a comma-separated string, a
non-string non-dict scalar stringifies, empty results become null). -/
def coerceCons (v : Option JVal) : PyDict :=
  match v with
  | none => defaultConstruction
  | some w =>
    match w with
    | JVal.obj kvs =>
      let out := dupdate defaultConstruction kvs
      let fixP := fun (out : PyDict) (part : String) =>
        match pyGet out part with
        | JVal.arr xs =>
          let joined := String.intercalate ", " ((xs.map (fun x => pyStrip (pyStr x))).filter (fun t => t ≠ ""))
          dset out part (if joined = "" then JVal.null else JVal.str joined)
        | JVal.null => out
        | JVal.str _ => out
        | JVal.obj _ => out
        | other =>
          let t := pyStrip (pyStr other)
          dset out part (if t = "" then JVal.null else JVal.str t)
      fixP (fixP out "top") "bottom"
    | _ => defaultConstruction

/-- schema.py `Record._coerce_camera.as_str`. -/
def casStr (x : JVal) : JVal :=
  match x with
  | JVal.null => JVal.null
  | JVal.arr xs =>
    let vals := (xs.map (fun i => pyStrip (pyStr i))).filter (fun t => t ≠ "")
    if vals.isEmpty then JVal.null else JVal.str (String.intercalate ", " vals)
  | JVal.bool b => JVal.str (if b then "yes" else "no")
  | JVal.num q =>
    let s := pyStrip (numStr q)
    if s = "" then JVal.null else JVal.str s
  | v =>
    let s := pyStrip (pyStr v)
    if s = "" then JVal.null else JVal.str s

/-- schema.py `Record._coerce_camera` (mode="before" validator): coerce the
four camera sub-values to strings or null, normalize `multiview`
spellings, and re-join `views`.  Never fails. -/
def coerceCamera (v : Option JVal) : PyDict :=
  match v with
  | none => defaultCamera
  | some w =>
    match w with
    | JVal.obj kvs =>
      let out : PyDict :=
        [("view", casStr (pyGet kvs "view")), ("multiview", casStr (pyGet kvs "multiview")),
         ("views", casStr (pyGet kvs "views")), ("angle", casStr (pyGet kvs "angle"))]
      let mv :=
        match pyGet out "multiview" with
        | JVal.str s => pyLower s
        | _ => ""
      let out :=
        if mv = "true" ∨ mv = "yes" ∨ mv = "1" then dset out "multiview" (JVal.str "yes")
        else if mv = "false" ∨ mv = "no" ∨ mv = "0" then dset out "multiview" (JVal.str "no")
        else if mv = "" then dset out "multiview" JVal.null
        else out
      let out :=
        if pyTruthy (pyGet out "views") then
          let toks := ((pyStr (pyGet out "views")).splitOn ",").map pyStrip |>.filter (fun t => t ≠ "")
          dset out "views" (if toks.isEmpty then JVal.null else JVal.str (String.intercalate ", " toks))
        else out
      out
    | _ => defaultCamera

/-- Pydantic validation of an `Optional[str]` field: `None` or a string
passes, anything else is a validation error naming the field. -/
def vOptStr (fieldName : String) (v : Option JVal) : Except String JVal :=
  match v with
  | none => Except.ok JVal.null
  | some JVal.null => Except.ok JVal.null
  | some (JVal.str s) => Except.ok (JVal.str s)
  | some _ => Except.error fieldName

/-- Pydantic validation of a `Dict[str, Optional[str]]` field: the value
must be a mapping whose values are null or strings; it is kept exactly as
supplied (no defaults are merged in).  An absent field takes the default. -/
def vStrDict (fieldName : String) (v : Option JVal) (dflt : PyDict) : Except String JVal :=
  match v with
  | none => Except.ok (JVal.obj dflt)
  | some (JVal.obj kvs) =>
    if kvs.all (fun p => p.2 = JVal.null ∨ isStr p.2) then Except.ok (JVal.obj kvs)
    else Except.error fieldName
  | some _ => Except.error fieldName

/-- Pydantic validation of a `List[str]` field. -/
def vStrList (fieldName : String) (v : Option JVal) : Except String JVal :=
  match v with
  | none => Except.ok (JVal.arr [])
  | some (JVal.arr xs) =>
    if xs.all isStr then Except.ok (JVal.arr xs) else Except.error fieldName
  | some _ => Except.error fieldName

/-- Pydantic validation of a `Dict[str, float]` field (values must be
numbers; pydantic's lax acceptance of numeric strings is not modelled —
no such value flows through this pipeline). -/
def vNumDict (fieldName : String) (v : Option JVal) : Except String JVal :=
  match v with
  | none => Except.ok (JVal.obj [])
  | some (JVal.obj kvs) =>
    if kvs.all (fun p => match p.2 with | JVal.num _ => true | _ => false) then Except.ok (JVal.obj kvs)
    else Except.error fieldName
  | some _ => Except.error fieldName

/-- schema.py `Record(**r)` followed by `model_dump(exclude_none=False)`:
validate and default every declared field (unknown keys are ignored,
matching `extra="ignore"` and the engine's `allowed` filter) and emit the
complete record in field declaration order.  The error carries the name of
the offending field (pydantic reports every offending field; we model the
first one in declaration order, with the required `image_id` checked
first). -/
def coerceRecord (r : PyDict) : Except String PyDict := do
  let imageId ←
    match dget r "image_id" with
    | some (JVal.str s) => Except.ok (JVal.str s)
    | _ => Except.error "image_id"
  let garmentType ← vOptStr "garment_type" (dget r "garment_type")
  let silhouette ← vOptStr "silhouette" (dget r "silhouette")
  let fabric ← vStrDict "fabric" (dget r "fabric") defaultFabric
  let garment ← vStrDict "garment" (dget r "garment") defaultGarment
  let gcs := JVal.obj (coerceGcs (dget r "garment_components"))
  let construction := JVal.obj (coerceCons (dget r "construction"))
  let fitAndDrape ← vOptStr "fit_and_drape" (dget r "fit_and_drape")
  let pose ← vOptStr "pose" (dget r "pose")
  let environmentLighting ← vStrDict "environment_lighting" (dget r "environment_lighting") defaultEnvironment
  let photoStyle ← vOptStr "photo_style" (dget r "photo_style")
  let footwear ← vStrDict "footwear" (dget r "footwear") defaultFootwear
  let modelB ← vStrDict "model" (dget r "model") defaultModelBlock
  let camera := JVal.obj (coerceCamera (dget r "camera"))
  let colorPalette ← vStrList "color_palette" (dget r "color_palette")
  let colorPrimary ← vOptStr "color_primary" (dget r "color_primary")
  let colorSecondary ← vOptStr "color_secondary" (dget r "color_secondary")
  let details ← vStrList "details" (dget r "details")
  let styling ← vStrDict "styling" (dget r "styling") defaultStyling
  let notesUncertain ← vStrList "notes_uncertain" (dget r "notes_uncertain")
  let photoMetrics ← vNumDict "photo_metrics" (dget r "photo_metrics")
  let confidence ← vNumDict "confidence" (dget r "confidence")
  let promptText ← vOptStr "prompt_text" (dget r "prompt_text")
  let version ← vOptStr "version" (dget r "version")
  let sourceHash ← vOptStr "source_hash" (dget r "source_hash")
  pure [("image_id", imageId), ("garment_type", garmentType), ("silhouette", silhouette),
        ("fabric", fabric), ("garment", garment), ("garment_components", gcs),
        ("construction", construction), ("fit_and_drape", fitAndDrape), ("pose", pose),
        ("environment_lighting", environmentLighting), ("photo_style", photoStyle),
        ("footwear", footwear), ("model", modelB), ("camera", camera),
        ("color_palette", colorPalette), ("color_primary", colorPrimary),
        ("color_secondary", colorSecondary), ("details", details), ("styling", styling),
        ("notes_uncertain", notesUncertain), ("photo_metrics", photoMetrics),
        ("confidence", confidence), ("prompt_text", promptText), ("version", version),
        ("source_hash", sourceHash)]

/-- engine.py `Engine.describe_image`, parameterized by the already-derived
image id (`path.stem`), source hash (`img_hash(path)`), path string, and
the `(fragment, confidence)` pairs produced by the backend for the chosen
passes.  The `Except.error` results model raised Python exceptions: an
error string names either the schema field pydantic rejects or the raising
stage.  `validate_record_colors` is wrapped in `try/except` by the source
and can have no effect. -/
def describeImage (imageId sourceHash imagePath : String)
    (passes : List (PyDict × JVal)) (normalize : Bool) : Except String PyDict :=
  let base : PyDict := [("image_id", JVal.str imageId), ("source_hash", JVal.str sourceHash)]
  let rec0 := passes.foldl (fun r pc => mergePass (some r) (some pc.1) pc.2 JVal.null) base
  let rec0 := dset rec0 "image_path" (JVal.str imagePath)
  match adaptColors rec0 with
  | none => Except.error "raise:_adapt_colors_from_vlm"
  | some rec1 =>
    let rec1 := detailsFilter rec1
    let recN : Option PyDict := if normalize then normalizeRecord rec1 else some rec1
    match recN with
    | none => Except.error "raise:normalize_record"
    | some rec2 =>
      let rec2 := dsetdefault rec2 "version" (JVal.str "vd_v1.0.0")
      let rec2 := dsetdefault rec2 "confidence" (JVal.obj [])
      let rec2 := dsetdefault rec2 "footwear" (JVal.obj [("type", JVal.null), ("color", JVal.null)])
      let rec2 := sanitizeTypes rec2
      coerceRecord rec2

/-! ## validators.py sanitize_record -/

/-- Python iteration `for x in v`: lists yield elements, strings yield
single-character strings, dicts yield their keys; iterating anything else
raises (`none`). -/
def pyIterList (v : JVal) : Option (List JVal) :=
  match v with
  | JVal.arr xs => some xs
  | JVal.str s => some (s.data.map (fun c => JVal.str (String.singleton c)))
  | JVal.obj kvs => some (kvs.map (fun p => JVal.str p.1))
  | _ => none

/-- Python `float(x)` on JSON-like values: numbers pass through, booleans
become 0/1, anything else raises (numeric-string parsing is not modelled —
no such value flows through this pipeline). -/
def pyFloat (v : JVal) : Option Rat :=
  match v with
  | JVal.num q => some q
  | JVal.bool b => some (if b then 1 else 0)
  | _ => none

/-- Python `.get(...)` on a value that must be a dict: raises (`none`)
otherwise.  Callers pass values already defaulted via `x or \x7b\x7d`. -/
def asDictOrRaise (v : JVal) : Option PyDict :=
  match v with
  | JVal.obj kvs => some kvs
  | _ => none

/-- Order-preserving de-duplication by Python `==` (the `c not in cp_unique`
loop of `sanitize_record`). -/
def dedupJ (seen : List JVal) : List JVal → List JVal
  | [] => []
  | c :: rest =>
    if seen.contains c then dedupJ seen rest
    else c :: dedupJ (seen ++ [c]) rest

def LAYER_DROP_SET : List String :=
  ["jacket", "pants", "trousers", "dress", "skirt", "shorts", "hoodie", "top", "bottom"]

def noteDoubleBreasted : String :=
  "Removed " ++ String.singleton sqChar ++ "double-breasted" ++ String.singleton sqChar
    ++ " due to zipper closure."

def noteSkirt : String :=
  "Inferred bottom as " ++ String.singleton sqChar ++ "skirt" ++ String.singleton sqChar
    ++ " from short length + seams/stitching cues."

/-- validators.py `sanitize_record` with `image_path` omitted (its default):
the branches guarded by `if image_path:` (pixel metrics, stitching-color
estimation, curtain detection) are skipped, exactly as in the source.
`none` models a raised Python exception on malformed field types. -/
def sanitizeRecordNone (recIn : PyDict) : Option PyDict := do
  let r := recIn
  let r := dsetdefault r "garment" (JVal.obj [])
  let r := dsetdefault r "construction" (JVal.obj [])
  let r := dsetdefault r "garment_components" (JVal.obj [])
  let r := dsetdefault r "model" (JVal.obj [])
  let r := dsetdefault r "camera" (JVal.obj [])
  let r := dsetdefault r "environment_lighting" (JVal.obj [])
  let r := dsetdefault r "details" (JVal.arr [])
  let r := dsetdefault r "notes_uncertain" (JVal.arr [])
  let r := dsetdefault r "photo_metrics" (JVal.obj [])
  let pm ← asDictOrRaise (pyGet r "photo_metrics")
  let specv := match dget pm "specularity" with
    | some v => v
    | none => JVal.num 0
  let spec ← pyFloat specv
  let fab ← asDictOrRaise (pyOr (pyGet r "fabric") (JVal.obj []))
  let finish := match pyGet fab "finish" with
    | JVal.str s => pyLower (pyStrip s)
    | _ => ""
  let fab :=
    if finish = "" then
      dset fab "finish" (JVal.str (if spec < 35/100 then "matte" else if spec ≤ 60/100 then "semi-gloss" else "glossy"))
    else if spec < 35/100 ∧ (finish = "gloss" ∨ finish = "glossy" ∨ finish = "semi-gloss") then
      dset fab "finish" (JVal.str "matte")
    else if 35/100 ≤ spec ∧ spec ≤ 60/100 ∧ (finish = "matte" ∨ finish = "gloss" ∨ finish = "glossy") then
      dset fab "finish" (JVal.str "semi-gloss")
    else if spec > 60/100 ∧ (finish = "matte" ∨ finish = "semi-gloss") then
      dset fab "finish" (JVal.str "glossy")
    else fab
  let r := dset r "fabric" (JVal.obj fab)
  let garA ← asDictOrRaise (pyOr (pyGet r "garment") (JVal.obj []))
  let topStyle := pyGet garA "top_style"
  let r ←
    match topStyle with
    | JVal.str ts =>
      if pyLower (pyStrip ts) = "bomber" then do
        let detIt ← pyIterList (pyOr (pyGet r "details") (JVal.arr []))
        let dets := detIt.map (fun d => pyLower (pyStr d))
        let ribby := dets.any (fun d => strIn "ribbed hem" d || strIn "rib knit" d || strIn "ribbed cuffs" d)
        if !ribby then
          match pyGet r "garment" with
          | JVal.obj kvs => pure (dset r "garment" (JVal.obj (dset kvs "top_style" (JVal.str "jacket"))))
          | _ => none
        else pure r
      else pure r
    | _ => pure r
  let cons ← asDictOrRaise (pyOr (pyGet r "construction") (JVal.obj []))
  let closureGlobal := pyLower (pyStr (pyOr (pyGet cons "closure") (JVal.str "")))
  let topBlk : PyDict := match pyGet cons "top" with
    | JVal.obj kvs => kvs
    | _ => []
  let closureTop := pyLower (pyStr (pyOr (pyGet topBlk "closure") (JVal.str "")))
  let hasZip := strIn "zip" closureGlobal || strIn "zip" closureTop
  let garB ← asDictOrRaise (pyOr (pyGet r "garment") (JVal.obj []))
  let sleeve := pyGet garB "top_sleeve"
  let hasLongSleeve := match sleeve with
    | JVal.str s => strIn "long" s
    | _ => false
  let gc0 ← asDictOrRaise (pyOr (pyGet r "garment_components") (JVal.obj []))
  let topLen := match pyGet gc0 "top_length" with
    | JVal.str s => pyLower s
    | _ => ""
  let isCropped := topLen == "cropped" || topLen == "short"
  let isHoodie := jeq (pyGet garB "top_style") (JVal.str "hoodie")
  let r ←
    if hasZip && hasLongSleeve && isCropped && !isHoodie then
      match pyGet r "garment" with
      | JVal.obj kvs =>
        let kvs := dset kvs "top" (pyOr (pyGet kvs "top") (JVal.str "jacket"))
        let kvs := dset kvs "top_style" (JVal.str "crop jacket")
        pure (dset r "garment" (JVal.obj kvs))
      | _ => none
    else pure r
  let dressGuard := match pyGet r "garment_type" with
    | JVal.str s => strIn "dress" (pyLower s)
    | _ => false
  let st ←
    if dressGuard then do
      let gc1 :=
        if pyTruthy (pyGet gc0 "bottom_length") ∧ pyTruthy (pyGet gc0 "top_length") then
          dset gc0 "top_length" JVal.null
        else gc0
      let sil ← lowStrOrEmpty (pyGet r "silhouette")
      let flowy := match pyGet r "fit_and_drape" with
        | JVal.str s => strIn "flowy" (pyLower s)
        | _ => false
      let bl ← lowOrEmpty (pyGet gc1 "bottom_length")
      let longish := bl == "midi" || bl == "ankle" || bl == "maxi" || bl == "floor"
      let r := if flowy && longish && (sil == "" || sil == "straight") then dset r "silhouette" (JVal.str "A-line") else r
      pure (dset r "garment_components" (JVal.obj gc1), gc1)
    else pure (r, gc0)
  let r := st.1
  let gcv := st.2
  let pose := match pyGet r "pose" with
    | JVal.str s => pyLower s
    | _ => ""
  let cam ← asDictOrRaise (pyOr (pyGet r "camera") (JVal.obj []))
  let view := match pyGet cam "view" with
    | JVal.str s => pyLower s
    | _ => ""
  let cam := if strIn "to camera" pose && view == "back" then dset cam "view" (JVal.str "front") else cam
  let cam :=
    if jeq (pyGet cam "multiview") (JVal.str "yes") then
      let views := match pyGet cam "views" with
        | JVal.str s => s
        | _ => ""
      let toks := ((views.splitOn ",").map (fun t => pyLower (pyStrip t))).filter (fun t => t ≠ "")
      let seen := (["front", "three-quarter", "side", "back"]).filter (fun t => toks.contains t)
      if !seen.isEmpty then dset cam "views" (JVal.str (String.intercalate ", " seen)) else cam
    else cam
  let r := dset r "camera" (JVal.obj cam)
  let cpIt ← pyIterList (pyOr (pyGet r "color_palette") (JVal.arr []))
  let cpU := dedupJ [] (cpIt.filter pyTruthy)
  let r := dset r "color_palette" (JVal.arr (if cpU.length > 2 then cpU.take 2 else cpU))
  let st2 :=
    match pyGet gcv "layers" with
    | JVal.arr xs =>
      let gcv2 := dset gcv "layers" (JVal.arr (xs.filter (fun x => !LAYER_DROP_SET.contains (pyLower (pyStrip (pyStr x))))))
      (dset r "garment_components" (JVal.obj gcv2), gcv2)
    | _ => (r, gcv)
  let r := st2.1
  let gcv := st2.2
  let r ←
    if hasZip then do
      let detIt ← pyIterList (pyOr (pyGet r "details") (JVal.arr []))
      let dets := detIt.map pyStr
      let filtered := dets.filter (fun d => !strIn "double-breasted" (pyLower d))
      if filtered.length ≠ dets.length then do
        let r := dset r "details" (JVal.arr (filtered.map JVal.str))
        let nu ← match pyGet r "notes_uncertain" with
          | JVal.arr xs => some xs
          | _ => none
        pure (dset r "notes_uncertain" (JVal.arr (nu ++ [JVal.str noteDoubleBreasted])))
      else pure r
    else pure r
  let garC ← asDictOrRaise (pyOr (pyGet r "garment") (JVal.obj []))
  let bottomName := pyGet garC "bottom"
  let bl ← lowOrEmpty (pyGet gcv "bottom_length")
  let seamsTxt ←
    match pyGet cons "bottom" with
    | JVal.obj bb => do
      let s1 ← strOrEmpty (pyGet bb "seams")
      let s2 ← strOrEmpty (pyGet bb "stitching")
      pure (pyLower (s1 ++ " " ++ s2))
    | _ => pure ""
  let r ←
    if !pyTruthy bottomName && (bl == "mini" || bl == "short")
        && (strIn "side seam" seamsTxt || strIn "visible seam" seamsTxt || strIn "contrast" seamsTxt || strIn "stitch" seamsTxt) then do
      let r ←
        match pyGet r "garment" with
        | JVal.obj kvs => some (dset r "garment" (JVal.obj (dset kvs "bottom" (JVal.str "skirt"))))
        | _ => none
      let nu ← match pyGet r "notes_uncertain" with
        | JVal.arr xs => some xs
        | _ => none
      pure (dset r "notes_uncertain" (JVal.arr (nu ++ [JVal.str noteSkirt])))
    else pure r
  let env ← asDictOrRaise (pyOr (pyGet r "environment_lighting") (JVal.obj []))
  let env := if !pyTruthy (pyGet env "background") then dset env "background" (JVal.str "plain studio sweep") else env
  pure (dset r "environment_lighting" (JVal.obj env))

/-- The pipeline exactly as section 2 of the specification words it:
fold each pass fragment through the Merger, then apply the Normalizer,
then the Sanitizer (`sanitize_record`, with its default `image_path`),
then schema validation.  This is the spec-side composition that claim C1
compares against `Engine.describe_image`; the stages themselves are the
source-translated functions above. -/
def specPipeline (imageId sourceHash : String)
    (passes : List (PyDict × JVal)) : Except String PyDict :=
  let base : PyDict := [("image_id", JVal.str imageId), ("source_hash", JVal.str sourceHash)]
  let merged := passes.foldl (fun r pc => mergePass (some r) (some pc.1) pc.2 JVal.null) base
  match normalizeRecord merged with
  | none => Except.error "raise:normalize_record"
  | some n =>
    match sanitizeRecordNone n with
    | none => Except.error "raise:sanitize_record"
    | some s => coerceRecord s

/-! ## Concrete scenario (section 8 of the specification) and projections -/

/-- Pass A fragment of the end-to-end scenario. -/
def passA : PyDict :=
  [("garment_type", JVal.str "dress"),
   ("fabric", JVal.obj [("type", JVal.str "polyester"), ("finish", JVal.str "shiny"), ("texture", JVal.str "smooth")]),
   ("color_palette", JVal.arr [JVal.str "navy"])]

/-- Pass B fragment of the end-to-end scenario. -/
def passB : PyDict :=
  [("construction", JVal.obj [("seams", JVal.str "princess seam"), ("closure", JVal.str "zip")])]

/-- Pass C fragment of the end-to-end scenario. -/
def passC : PyDict :=
  [("pose", JVal.str "standing, facing camera"),
   ("camera", JVal.obj [("view", JVal.str "back")])]

/-- The three passes with their confidences 0.8 / 0.7 / 0.6. -/
def scenarioPasses : List (PyDict × JVal) :=
  [(passA, JVal.num (8/10)), (passB, JVal.num (7/10)), (passC, JVal.num (6/10))]

/-- The engine output on the scenario. -/
def engineScenario : Except String PyDict :=
  describeImage "img_001" "hash01" "/images/img_001.jpg" scenarioPasses true

/-- The spec-worded pipeline output on the scenario. -/
def specScenario : Except String PyDict :=
  specPipeline "img_001" "hash01" scenarioPasses

def fabricTypeOf (r : PyDict) : Option JVal :=
  match pyGet r "fabric" with
  | JVal.obj f => some (pyGet f "type")
  | _ => none

def cameraViewOf (er : Except String PyDict) : Option JVal :=
  match er with
  | Except.ok r =>
    match pyGet r "camera" with
    | JVal.obj c => some (pyGet c "view")
    | _ => none
  | _ => none

def constructionClosureOf (er : Except String PyDict) : Option JVal :=
  match er with
  | Except.ok r =>
    match pyGet r "construction" with
    | JVal.obj c => some (pyGet c "closure")
    | _ => none
  | _ => none

def fieldOf (er : Except String PyDict) (k : String) : Option JVal :=
  match er with
  | Except.ok r => dget r k
  | _ => none

/-! ## Well-typedness predicate for the pydantic layer (claims C7/C8) -/

def okOptStr (v : Option JVal) : Bool :=
  match v with
  | none => true
  | some JVal.null => true
  | some (JVal.str _) => true
  | _ => false

def okStrDict (v : Option JVal) : Bool :=
  match v with
  | none => true
  | some (JVal.obj kvs) => kvs.all (fun p => p.2 == JVal.null || isStr p.2)
  | _ => false

def okStrList (v : Option JVal) : Bool :=
  match v with
  | none => true
  | some (JVal.arr xs) => xs.all isStr
  | _ => false

def okNumDict (v : Option JVal) : Bool :=
  match v with
  | none => true
  | some (JVal.obj kvs) => kvs.all (fun p => match p.2 with | JVal.num _ => true | _ => false)
  | _ => false

/-- Sufficient well-typedness for `coerceRecord` to succeed: `image_id`
is a string, the plain string fields hold strings or null, the
string-valued dict fields hold string-or-null mappings, the list fields
hold string lists, and the metric dicts hold numbers.  The
`garment_components`, `construction` and `camera` fields are
unconstrained: their before-validators accept anything. -/
def wellTypedRecord (r : PyDict) : Bool :=
  (match dget r "image_id" with | some (JVal.str _) => true | _ => false)
  && okOptStr (dget r "garment_type") && okOptStr (dget r "silhouette")
  && okOptStr (dget r "fit_and_drape") && okOptStr (dget r "pose")
  && okOptStr (dget r "photo_style") && okOptStr (dget r "color_primary")
  && okOptStr (dget r "color_secondary") && okOptStr (dget r "prompt_text")
  && okOptStr (dget r "version") && okOptStr (dget r "source_hash")
  && okStrDict (dget r "fabric") && okStrDict (dget r "garment")
  && okStrDict (dget r "environment_lighting") && okStrDict (dget r "footwear")
  && okStrDict (dget r "model") && okStrDict (dget r "styling")
  && okStrList (dget r "color_palette") && okStrList (dget r "details")
  && okStrList (dget r "notes_uncertain")
  && okNumDict (dget r "photo_metrics") && okNumDict (dget r "confidence")

def gcKeyList : List String := ["top_length", "bottom_length", "layers"]

def consKeyList : List String := ["seams", "stitching", "stitching_color", "hems", "closure", "top", "bottom"]

def camKeyList : List String := ["view", "multiview", "views", "angle"]

def keysAll (d : PyDict) (ks : List String) : Bool :=
  ks.all (fun k => dhas d k)

/-- Keys of a dict, for Nodup hypotheses in merge theorems. -/
def keysOf (d : PyDict) : List String :=
  d.map Prod.fst

deriving instance DecidableEq for Except

/-! ## Dictionary and merge-loop lemmas -/

theorem dget_dset_self (d : PyDict) (k : String) (v : JVal) : dget (dset d k v) k = some v := by
  induction d with
  | nil => simp [dset, dget]
  | cons p rest ih =>
    obtain ⟨k0, v0⟩ := p
    by_cases h : k0 = k
    · simp [dset, dget, h]
    · simp [dset, dget, h, ih]

theorem dget_dset_ne (d : PyDict) (k k' : String) (v : JVal) (h : k' ≠ k) :
    dget (dset d k' v) k = dget d k := by
  induction d with
  | nil => simp [dset, dget, h]
  | cons p rest ih =>
    obtain ⟨k0, v0⟩ := p
    by_cases h0 : k0 = k'
    · subst h0
      simp [dset, dget, h]
    · by_cases h1 : k0 = k
      · subst h1
        simp [dset, dget, h0]
      · simp [dset, dget, h0, h1, ih]

theorem dget_eq_none_iff (d : PyDict) (k : String) : dget d k = none ↔ k ∉ keysOf d := by
  induction d with
  | nil => simp [dget, keysOf]
  | cons p rest ih =>
    obtain ⟨k0, v0⟩ := p
    by_cases h : k0 = k
    · simp [dget, keysOf, h]
    · simp [dget, keysOf, h, ih, Ne.symm h]

theorem mergeLoop_get_none (out bs : PyDict) (k : String) (h : dget bs k = none) :
    dget (pyMergeLoop out bs) k = dget out k := by
  induction bs generalizing out with
  | nil => simp [pyMergeLoop]
  | cons p rest ih =>
    obtain ⟨k0, v0⟩ := p
    by_cases h0 : k0 = k
    · simp [dget, h0] at h
    · simp only [dget, h0, if_false] at h
      rw [pyMergeLoop, ih _ h, dget_dset_ne _ _ _ _ h0]

theorem mergeLoop_get_some (out bs : PyDict) (k : String) (vb : JVal)
    (hnd : (keysOf bs).Nodup) (h : dget bs k = some vb) :
    dget (pyMergeLoop out bs) k = some (pyCombine (pyGet out k) vb) := by
  induction bs generalizing out with
  | nil => simp [dget] at h
  | cons p rest ih =>
    obtain ⟨k0, v0⟩ := p
    simp only [keysOf, List.map_cons, List.nodup_cons] at hnd
    by_cases h0 : k0 = k
    · subst h0
      simp [dget] at h
      subst h
      have hrest : dget rest k0 = none := by
        rw [dget_eq_none_iff]
        exact hnd.1
      rw [pyMergeLoop, mergeLoop_get_none _ _ _ hrest, dget_dset_self]
    · simp only [dget, h0, if_false] at h
      have hnd2 : (keysOf rest).Nodup := hnd.2
      rw [pyMergeLoop, ih _ hnd2 h]
      simp [pyGet, dget_dset_ne _ _ _ _ h0]

theorem mergePass_get_nonobj (base inc : PyDict) (k : String) (vb : JVal) (c fs : JVal)
    (hnd : (keysOf inc).Nodup) (hbne : base ≠ [])
    (hi : dget inc k = some vb)
    (hres : isObj (pyCombine (pyGet base k) vb) = false) :
    dget (mergePass (some base) (some inc) c fs) k = some (pyCombine (pyGet base k) vb) := by
  have hince : inc.isEmpty = false := by
    cases inc with
    | nil => simp [dget] at hi
    | cons p rest => rfl
  have hbe : base.isEmpty = false := by
    cases base with
    | nil => exact absurd rfl hbne
    | cons p rest => rfl
  have hout : dget (pyMergeDicts base inc) k = some (pyCombine (pyGet base k) vb) := by
    rw [pyMergeDicts, hbe, hince]
    simp only [Bool.false_eq_true, if_false]
    exact mergeLoop_get_some base inc k vb hnd hi
  have hm : mergePass (some base) (some inc) c fs =
      (match dget (pyMergeDicts base inc) "colors" with
      | some (JVal.obj cd) =>
        match dget cd "accents" with
        | some (JVal.arr xs) =>
          dset (pyMergeDicts base inc) "colors" (JVal.obj (dset cd "accents" (JVal.arr ((dedupKeys [] xs).take 12))))
        | _ => pyMergeDicts base inc
      | _ => pyMergeDicts base inc) := by
    simp only [mergePass, Option.getD, hince, Bool.false_eq_true, if_false]
  rw [hm]
  split
  next cd heq =>
    split
    next xs hacc =>
      by_cases hkc : k = "colors"
      · subst hkc
        rw [hout] at heq
        have hco := Option.some_inj.mp heq
        rw [hco] at hres
        simp [isObj] at hres
      · rw [dget_dset_ne _ _ _ _ (fun hh => hkc hh.symm)]
        exact hout
    next => exact hout
  next => exact hout

/-! ## Claim theorems: merge (C2, C3, C4, C10) -/

/-- C2 counterexample: merging base seams "flat seam" against incoming
seams "princess seam" with incoming confidence 0.3 yields "princess seam",
not the higher-confidence base value "flat seam" — `merge_pass` never
consults its confidence argument. -/
theorem c2_counterexample :
    dget (mergePass (some [("seams", JVal.str "flat seam")])
        (some [("seams", JVal.str "princess seam")]) (JVal.num (3/10)) JVal.null) "seams"
      = some (JVal.str "princess seam")
    ∧ JVal.str "princess seam" ≠ JVal.str "flat seam" :=
  ⟨rfl, by decide⟩

/-- C2 (amended): confidence plays no role in `merge_pass`; for every key
where base and incoming both hold scalar (non-dict, non-list) values, the
incoming value is kept regardless of the confidence argument, so the
claimed example yields "princess seam". -/
theorem c2_amended :
    (∀ (base inc : PyDict) (k : String) (va vb c fs : JVal),
      (keysOf inc).Nodup →
      dget base k = some va → dget inc k = some vb →
      isObj va = false → isList va = false → isObj vb = false → isList vb = false →
      dget (mergePass (some base) (some inc) c fs) k = some vb)
    ∧ dget (mergePass (some [("seams", JVal.str "flat seam")])
        (some [("seams", JVal.str "princess seam")]) (JVal.num (3/10)) JVal.null) "seams"
      = some (JVal.str "princess seam") := by
  constructor
  · intro base inc k va vb c fs hnd hb hi hvo hva hio hia
    have hbne : base ≠ [] := by
      intro h
      subst h
      simp [dget] at hb
    have hget : pyGet base k = va := by simp [pyGet, hb]
    have hcomb : pyCombine (pyGet base k) vb = vb := by
      rw [hget]
      cases va <;> cases vb <;> simp_all [pyCombine, isObj, isList]
    have hres : isObj (pyCombine (pyGet base k) vb) = false := by
      rw [hcomb]
      exact hio
    have := mergePass_get_nonobj base inc k vb c fs hnd hbne hi hres
    rw [hcomb] at this
    exact this
  · rfl

/-- C2 witness: the general clause applied to the claimed concrete merge
with confidence supplied. -/
theorem c2_witness :
    dget (mergePass (some [("seams", JVal.str "flat seam")])
        (some [("seams", JVal.str "princess seam")]) (JVal.num (9/10)) JVal.null) "seams"
      = some (JVal.str "princess seam") :=
  c2_amended.1 [("seams", JVal.str "flat seam")] [("seams", JVal.str "princess seam")]
    "seams" (JVal.str "flat seam") (JVal.str "princess seam") (JVal.num (9/10)) JVal.null
    (by decide) rfl rfl rfl rfl rfl rfl

/-- C3 counterexample: a present-but-null incoming value replaces the
non-empty base value "X" — there is no empty-value short-circuit in the
incoming-to-base direction. -/
theorem c3_counterexample :
    dget (mergePass (some [("f", JVal.str "X")]) (some [("f", JVal.null)])
        JVal.null JVal.null) "f" = some JVal.null
    ∧ JVal.null ≠ JVal.str "X" :=
  ⟨rfl, by decide⟩

/-- C3 (amended): only one direction of the claimed short-circuit holds,
and only because the incoming side always wins: a falsy non-list base
value (null, empty string, empty dict, false, zero) is replaced by a
non-empty incoming string; an empty-list base value instead list-merges,
producing the one-element list; and (counterexample) an empty incoming
value does replace a non-empty base value. -/
theorem c3_amended :
    (∀ (base inc : PyDict) (k : String) (bv : JVal) (x : String) (c fs : JVal),
      (keysOf inc).Nodup → dget base k = some bv →
      pyTruthy bv = false → isList bv = false →
      dget inc k = some (JVal.str x) → x ≠ "" →
      dget (mergePass (some base) (some inc) c fs) k = some (JVal.str x))
    ∧ (∀ (base inc : PyDict) (k : String) (x : String) (c fs : JVal),
      (keysOf inc).Nodup → dget base k = some (JVal.arr []) →
      dget inc k = some (JVal.str x) →
      dget (mergePass (some base) (some inc) c fs) k = some (JVal.arr [JVal.str x]))
    ∧ dget (mergePass (some [("f", JVal.obj [])]) (some [("f", JVal.str "X")])
        JVal.null JVal.null) "f" = some (JVal.str "X") := by
  refine ⟨?_, ?_, rfl⟩
  · intro base inc k bv x c fs hnd hb htr hlst hi hx
    have hbne : base ≠ [] := by
      intro h
      subst h
      simp [dget] at hb
    have hget : pyGet base k = bv := by simp [pyGet, hb]
    have hcomb : pyCombine (pyGet base k) (JVal.str x) = JVal.str x := by
      rw [hget]
      cases bv <;> simp_all [pyCombine, isList]
    have hres : isObj (pyCombine (pyGet base k) (JVal.str x)) = false := by
      rw [hcomb]
      rfl
    have := mergePass_get_nonobj base inc k (JVal.str x) c fs hnd hbne hi hres
    rw [hcomb] at this
    exact this
  · intro base inc k x c fs hnd hb hi
    have hbne : base ≠ [] := by
      intro h
      subst h
      simp [dget] at hb
    have hget : pyGet base k = JVal.arr [] := by simp [pyGet, hb]
    have hcomb : pyCombine (pyGet base k) (JVal.str x) = JVal.arr [JVal.str x] := by
      rw [hget]
      rfl
    have hres : isObj (pyCombine (pyGet base k) (JVal.str x)) = false := by
      rw [hcomb]
      rfl
    have := mergePass_get_nonobj base inc k (JVal.str x) c fs hnd hbne hi hres
    rw [hcomb] at this
    exact this

/-- C3 witness: both general clauses applied at concrete inputs — a null
base value replaced by "X", and an empty-list base value producing ["X"]. -/
theorem c3_witness :
    dget (mergePass (some [("f", JVal.null)]) (some [("f", JVal.str "X")])
        JVal.null JVal.null) "f" = some (JVal.str "X")
    ∧ dget (mergePass (some [("g", JVal.arr [])]) (some [("g", JVal.str "Y")])
        JVal.null JVal.null) "g" = some (JVal.arr [JVal.str "Y"]) :=
  ⟨c3_amended.1 [("f", JVal.null)] [("f", JVal.str "X")] "f" JVal.null "X" JVal.null JVal.null
      (by decide) rfl rfl rfl rfl (by decide),
   c3_amended.2.1 [("g", JVal.arr [])] [("g", JVal.str "Y")] "g" "Y" JVal.null JVal.null
      (by decide) rfl rfl⟩

/-- C4 counterexample: with no confidence supplied, the longer base pose
string is not kept — the shorter incoming string "standing" wins, refuting
the claimed specificity rule in the base-keeps direction. -/
theorem c4_counterexample :
    dget (mergePass (some [("pose", JVal.str "standing, three-quarter turn, hand on hip")])
        (some [("pose", JVal.str "standing")]) JVal.null JVal.null) "pose"
      = some (JVal.str "standing")
    ∧ JVal.str "standing" ≠ JVal.str "standing, three-quarter turn, hand on hip" :=
  ⟨rfl, by decide⟩

/-- C4 (amended): when both sides hold string scalars the incoming string
always wins, regardless of length or of any specificity score; in
particular the claimed example yields the longer string only because the
longer string is the incoming one. -/
theorem c4_amended :
    (∀ (base inc : PyDict) (k : String) (sa sb : String) (c fs : JVal),
      (keysOf inc).Nodup →
      dget base k = some (JVal.str sa) → dget inc k = some (JVal.str sb) →
      dget (mergePass (some base) (some inc) c fs) k = some (JVal.str sb))
    ∧ dget (mergePass (some [("pose", JVal.str "standing")])
        (some [("pose", JVal.str "standing, three-quarter turn, hand on hip")])
        JVal.null JVal.null) "pose"
      = some (JVal.str "standing, three-quarter turn, hand on hip") := by
  constructor
  · intro base inc k sa sb c fs hnd hb hi
    have hbne : base ≠ [] := by
      intro h
      subst h
      simp [dget] at hb
    have hget : pyGet base k = JVal.str sa := by simp [pyGet, hb]
    have hcomb : pyCombine (pyGet base k) (JVal.str sb) = JVal.str sb := by
      rw [hget]
      rfl
    have hres : isObj (pyCombine (pyGet base k) (JVal.str sb)) = false := by
      rw [hcomb]
      rfl
    have := mergePass_get_nonobj base inc k (JVal.str sb) c fs hnd hbne hi hres
    rw [hcomb] at this
    exact this
  · rfl

/-- C10: the confidence argument of `merge_pass` has no effect on the
merged result — the body never reads `conf_in`, so any two confidence
values (float, mapping, or `None`, all representable as `JVal`) produce
identical output. -/
theorem c10_confidence_ignored :
    ∀ (base incoming : Option PyDict) (c1 c2 fs : JVal),
      mergePass base incoming c1 fs = mergePass base incoming c2 fs :=
  fun _ _ _ _ _ => rfl

/-- C4 witness: the general incoming-wins clause applied at the claimed
concrete example. -/
theorem c4_witness :
    dget (mergePass (some [("pose", JVal.str "standing")])
        (some [("pose", JVal.str "standing, three-quarter turn, hand on hip")])
        JVal.null JVal.null) "pose"
      = some (JVal.str "standing, three-quarter turn, hand on hip") :=
  c4_amended.1 [("pose", JVal.str "standing")]
    [("pose", JVal.str "standing, three-quarter turn, hand on hip")]
    "pose" "standing" "standing, three-quarter turn, hand on hip" JVal.null JVal.null
    (by decide) rfl rfl

/-! ## De-duplication lemmas (claim C5) -/

theorem dedup_congr (l : List JVal) :
    ∀ (s1 s2 : List MKey), (∀ a, s1.contains a = s2.contains a) →
      dedupKeys s1 l = dedupKeys s2 l := by
  induction l with
  | nil => intro s1 s2 _; rfl
  | cons x rest ih =>
    intro s1 s2 h
    rw [dedupKeys, dedupKeys, h (itemKey x)]
    by_cases hc : s2.contains (itemKey x) = true
    · simp only [hc, if_true]
      exact ih s1 s2 h
    · have hx : ∀ a, (itemKey x :: s1).contains a = (itemKey x :: s2).contains a := by
        intro a
        have h2 := h a
        simp only [List.contains_cons]
        rw [h2]
      have hcf : s2.contains (itemKey x) = false := Bool.eq_false_iff.mpr hc
      rw [hcf]
      simp only [Bool.false_eq_true, if_false]
      rw [ih (itemKey x :: s1) (itemKey x :: s2) hx]

theorem dedup_mem_keys (l : List JVal) :
    ∀ (seen : List MKey) (x : JVal), x ∈ dedupKeys seen l →
      seen.contains (itemKey x) = false := by
  induction l with
  | nil =>
    intro seen x hx
    simp [dedupKeys] at hx
  | cons a rest ih =>
    intro seen x hx
    rw [dedupKeys] at hx
    by_cases hc : seen.contains (itemKey a) = true
    · rw [if_pos hc] at hx
      exact ih seen x hx
    · rw [if_neg hc] at hx
      cases hx with
      | head => exact Bool.eq_false_iff.mpr hc
      | tail _ hmem =>
        have := ih (itemKey a :: seen) x hmem
        simp only [List.contains_cons, Bool.or_eq_false_iff] at this
        exact this.2

theorem dedup_cons_seen (l : List JVal) :
    ∀ (seen : List MKey) (k : MKey),
      dedupKeys (k :: seen) l = (dedupKeys seen l).filter (fun x => !(itemKey x == k)) := by
  induction l with
  | nil => intro seen k; rfl
  | cons a rest ih =>
    intro seen k
    by_cases hk : itemKey a = k
    · subst hk
      have hmemc : (itemKey a :: seen).contains (itemKey a) = true := by
        simp only [List.contains_cons, beq_self_eq_true, Bool.true_or]
      by_cases hc : seen.contains (itemKey a) = true
      · rw [dedupKeys, dedupKeys, if_pos hc, if_pos hmemc]
        exact ih seen (itemKey a)
      · rw [dedupKeys, dedupKeys, if_neg hc, if_pos hmemc]
        rw [List.filter_cons_of_neg (by simp)]
        have hsub : ∀ x ∈ dedupKeys (itemKey a :: seen) rest, (!(itemKey x == itemKey a)) = true := by
          intro x hx
          have hmk := dedup_mem_keys rest (itemKey a :: seen) x hx
          simp only [List.contains_cons, Bool.or_eq_false_iff] at hmk
          simp [hmk.1]
        exact (List.filter_eq_self.mpr hsub).symm
    · have hbk : (itemKey a == k) = false := beq_eq_false_iff_ne.mpr hk
      by_cases hc : seen.contains (itemKey a) = true
      · have hc2 : (k :: seen).contains (itemKey a) = true := by
          simp only [List.contains_cons, hc, Bool.or_true]
        rw [dedupKeys, dedupKeys, if_pos hc, if_pos hc2]
        exact ih seen k
      · have hc2 : (k :: seen).contains (itemKey a) = false := by
          simp only [List.contains_cons, hbk, Bool.eq_false_iff.mpr hc, Bool.or_self]
        rw [dedupKeys, dedupKeys, if_neg hc, if_neg (by rw [hc2]; exact Bool.false_ne_true)]
        rw [List.filter_cons_of_pos (by simp [hbk])]
        have hcongr : dedupKeys (itemKey a :: k :: seen) rest = dedupKeys (k :: itemKey a :: seen) rest := by
          apply dedup_congr
          intro b
          simp only [List.contains_cons]
          rw [Bool.or_left_comm]
        rw [hcongr, ih (itemKey a :: seen) k]

theorem dedup_append (l1 l2 : List JVal) :
    ∀ (seen : List MKey),
      dedupKeys seen (l1 ++ l2)
        = dedupKeys seen l1
          ++ (dedupKeys seen l2).filter (fun x => !((l1.map itemKey).contains (itemKey x))) := by
  induction l1 with
  | nil =>
    intro seen
    simp only [List.nil_append, dedupKeys, List.map_nil]
    have h : ∀ x ∈ dedupKeys seen l2, (!(([] : List MKey).contains (itemKey x))) = true := by
      intro x _
      rfl
    rw [List.filter_eq_self.mpr h]
  | cons a rest ih =>
    intro seen
    by_cases hc : seen.contains (itemKey a) = true
    · rw [List.cons_append, dedupKeys, if_pos hc, dedupKeys, if_pos hc, ih seen]
      congr 1
      apply List.filter_congr
      intro x hx
      have hmk := dedup_mem_keys l2 seen x hx
      have hne : (itemKey x == itemKey a) = false := by
        apply beq_eq_false_iff_ne.mpr
        intro he
        rw [he] at hmk
        rw [hmk] at hc
        exact Bool.false_ne_true hc
      simp only [List.map_cons, List.contains_cons, hne, Bool.false_or]
    · rw [List.cons_append, dedupKeys, if_neg hc, dedupKeys, if_neg hc, ih (itemKey a :: seen)]
      rw [List.cons_append]
      congr 1
      rw [dedup_cons_seen l2 seen (itemKey a), List.filter_filter]
      congr 1
      apply List.filter_congr
      intro x _
      simp only [List.map_cons, List.contains_cons, Bool.not_or]
      rw [Bool.and_comm]

/-! ## Claim theorem: list union (C5) -/

/-- C5: when both sides of a key are sequences the merged value is the
de-duplicated union — the base items (first occurrence of each structural
key) followed by those incoming items whose key is not already present in
the base, insertion order preserved; color-accent lists are additionally
de-duplicated and capped at 12 after the merge; and the claimed
color-palette example evaluates as stated. -/
theorem c5_list_union :
    (∀ (a b : List JVal),
      pyMergeLists (JVal.arr a) (JVal.arr b)
        = dedupKeys [] a
          ++ (dedupKeys [] b).filter (fun x => !((a.map itemKey).contains (itemKey x))))
    ∧ (∀ (base inc : PyDict) (k : String) (va vb : List JVal) (c fs : JVal),
      (keysOf inc).Nodup →
      dget base k = some (JVal.arr va) → dget inc k = some (JVal.arr vb) →
      dget (mergePass (some base) (some inc) c fs) k
        = some (JVal.arr (dedupKeys [] (va ++ vb))))
    ∧ (∀ (base inc : PyDict) (cd : List (String × JVal)) (xs : List JVal) (c fs : JVal),
      inc ≠ [] →
      dget (pyMergeDicts base inc) "colors" = some (JVal.obj cd) →
      dget cd "accents" = some (JVal.arr xs) →
      dget (mergePass (some base) (some inc) c fs) "colors"
        = some (JVal.obj (dset cd "accents" (JVal.arr ((dedupKeys [] xs).take 12))))
      ∧ ((dedupKeys [] xs).take 12).length ≤ 12)
    ∧ mergePass (some [("color_palette", JVal.arr [JVal.str "navy", JVal.str "white"])])
        (some [("color_palette", JVal.arr [JVal.str "white", JVal.str "red"])]) JVal.null JVal.null
      = [("color_palette", JVal.arr [JVal.str "navy", JVal.str "white", JVal.str "red"])] := by
  refine ⟨?_, ?_, ?_, rfl⟩
  · intro a b
    show dedupKeys [] (asPyList (JVal.arr a) ++ asPyList (JVal.arr b)) = _
    show dedupKeys [] (a ++ b) = _
    exact dedup_append a b []
  · intro base inc k va vb c fs hnd hb hi
    have hbne : base ≠ [] := by
      intro h
      subst h
      simp [dget] at hb
    have hget : pyGet base k = JVal.arr va := by simp [pyGet, hb]
    have hcomb : pyCombine (pyGet base k) (JVal.arr vb) = JVal.arr (dedupKeys [] (va ++ vb)) := by
      rw [hget]
      rfl
    have hres : isObj (pyCombine (pyGet base k) (JVal.arr vb)) = false := by
      rw [hcomb]
      rfl
    have := mergePass_get_nonobj base inc k (JVal.arr vb) c fs hnd hbne hi hres
    rw [hcomb] at this
    exact this
  · intro base inc cd xs c fs hince hcol hacc
    have hince2 : inc.isEmpty = false := by
      cases inc with
      | nil => exact absurd rfl hince
      | cons p rest => rfl
    constructor
    · have hm : mergePass (some base) (some inc) c fs =
          (match dget (pyMergeDicts base inc) "colors" with
          | some (JVal.obj cd) =>
            match dget cd "accents" with
            | some (JVal.arr xs) =>
              dset (pyMergeDicts base inc) "colors"
                (JVal.obj (dset cd "accents" (JVal.arr ((dedupKeys [] xs).take 12))))
            | _ => pyMergeDicts base inc
          | _ => pyMergeDicts base inc) := by
        simp only [mergePass, Option.getD, hince2, Bool.false_eq_true, if_false]
      rw [hm, hcol]
      simp only []
      rw [hacc]
      exact dget_dset_self _ _ _
    · rw [List.length_take]
      exact min_le_left _ _

/-- C5 witness: the general clauses applied at concrete inputs — the
claimed color-palette merge, and an accents list that is de-duplicated and
capped. -/
theorem c5_witness :
    dget (mergePass (some [("color_palette", JVal.arr [JVal.str "navy", JVal.str "white"])])
        (some [("color_palette", JVal.arr [JVal.str "white", JVal.str "red"])])
        JVal.null JVal.null) "color_palette"
      = some (JVal.arr (dedupKeys [] ([JVal.str "navy", JVal.str "white"] ++ [JVal.str "white", JVal.str "red"])))
    ∧ dget (mergePass (some [("colors", JVal.obj [("accents", JVal.arr [JVal.str "r"])])])
        (some [("colors", JVal.obj [("accents", JVal.arr [JVal.str "r", JVal.str "s"])])])
        JVal.null JVal.null) "colors"
      = some (JVal.obj (dset [("accents", JVal.arr [JVal.str "r", JVal.str "s"])] "accents"
          (JVal.arr ((dedupKeys [] [JVal.str "r", JVal.str "s"]).take 12)))) :=
  ⟨c5_list_union.2.1 [("color_palette", JVal.arr [JVal.str "navy", JVal.str "white"])]
      [("color_palette", JVal.arr [JVal.str "white", JVal.str "red"])]
      "color_palette" [JVal.str "navy", JVal.str "white"] [JVal.str "white", JVal.str "red"]
      JVal.null JVal.null (by decide) rfl rfl,
   (c5_list_union.2.2.1 [("colors", JVal.obj [("accents", JVal.arr [JVal.str "r"])])]
      [("colors", JVal.obj [("accents", JVal.arr [JVal.str "r", JVal.str "s"])])]
      [("accents", JVal.arr [JVal.str "r", JVal.str "s"])] [JVal.str "r", JVal.str "s"]
      JVal.null JVal.null (by decide) rfl rfl).1⟩
